import Mathlib

/-
  Formal model of the cesium-terrain-builder concurrent tile pipeline core:
  - MBTiler (src/MBTiler.cpp, src/MBTiler.hpp): the SQLite-backed tile store,
    its in-memory existence index and its insert mutex;
  - CTBZOutputStream (src/CTBZOutputStream.hpp, CTBZOutputStream.cpp): the
    streaming gzip compressor built on zlib;
  - CTBMBTilesTileSerializer (CTBMBTilesTileSerializer.cpp/.hpp): the
    per-tile serialization orchestration;
  - ctb-tile (tools/ctb-tile.cpp): the thread coordination protocol
    (incrementIterator) and the driver (runTiler, main).
  Machine integers are modelled as Nat with explicit reduction modulo 2^64
  where the source computes in uint64_t.  C++ exceptions are modelled with
  Except / Option result types.  The zlib deflate engine and the MeshTile
  payload encoder are external to the repository; they are modelled from the
  spec where noted.
-/

namespace CTB

/-! ## Tile coordinates and the packed 64-bit identifier -/

/-- A tile coordinate as used throughout the source: zoom level, column (x)
and row (y). -/
structure TileCoordinate where
  zoom : Nat
  x : Nat
  y : Nat
deriving DecidableEq, Repr

/-- The packed 64-bit tile identifier from MBTiler.cpp (testTileExists and
loadTiles): the uint64_t value (zoom shifted left 58) or (column shifted
left 29) or row, computed in 64-bit arithmetic, hence the reduction modulo
2 to the 64. -/
def packTile (zoom tileColumn tileRow : Nat) : Nat :=
  (((zoom <<< 58) ||| (tileColumn <<< 29)) ||| tileRow) % 2 ^ 64

/-! ## MBTiler: the SQLite-backed tile store

The SQLite database is modelled by the list of persisted rows of the tiles
table (`records`).  The in-memory existence index (the C++ member
`std::unordered_set<uint64_t> tiles`) is a `Finset Nat`.  The insert mutex
(`std::mutex mtx`) is a Boolean field recording whether it is held.
A failing `sqlite3_step` of the insert statement is represented by the
`stepOk` parameter of `insertBlob`; the thrown C++ exception is an
`Option String` component of the result, paired with the resulting store
state so that the state on the exceptional path is observable. -/

/-- One persisted row of the tiles table. -/
structure TileRecord where
  zoom_level : Nat
  tile_column : Nat
  tile_row : Nat
  tile_data : List Nat
deriving DecidableEq, Repr

/-- The MBTiler object: persisted rows, the in-memory index `tiles`, and the
insert mutex state. -/
structure MBTiler where
  records : List TileRecord
  tiles : Finset Nat
  mtxLocked : Bool
deriving DecidableEq

/-- MBTiler::loadTiles: scan every persisted row and insert its packed
identifier into the in-memory set.  (The source reads the columns back with
sqlite3_column_int; for the coordinate ranges considered by the spec, below
2^29, that read returns the stored value unchanged.) -/
def loadTiles (records : List TileRecord) : Finset Nat :=
  (records.map fun r => packTile r.zoom_level r.tile_column r.tile_row).toFinset

/-- The MBTiler constructor: opens the database file (whose tiles table holds
`records`), prepares the statements and calls loadTiles.  The mutex starts
released. -/
def MBTiler.openStore (records : List TileRecord) : MBTiler :=
  { records := records, tiles := loadTiles records, mtxLocked := false }

/-- MBTiler::insertBlob: lock the mutex, reset and rebind the prepared insert
statement, execute it, and unlock.  On a successful step the row is appended
to the tiles table and the mutex is released; if the step fails the C++ code
throws while the mutex is still held (there is no unlock on that path).
The in-memory `tiles` index is not touched on either path. -/
def MBTiler.insertBlob (m : MBTiler) (blob : List Nat)
    (zoom tileColumn tileRow : Nat) (stepOk : Bool) : MBTiler × Option String :=
  let locked : MBTiler := { m with mtxLocked := true }
  if stepOk then
    ({ locked with
        records := locked.records ++ [⟨zoom, tileColumn, tileRow, blob⟩],
        mtxLocked := false }, none)
  else
    (locked, some "SQLite Error")

/-- MBTiler::testTileExists: O(1) membership check of the packed identifier
against the in-memory set. -/
def MBTiler.testTileExists (m : MBTiler) (zoom tileColumn tileRow : Nat) : Bool :=
  decide (packTile zoom tileColumn tileRow ∈ m.tiles)

/-- MBTiler::numTiles: the size of the in-memory set. -/
def MBTiler.numTiles (m : MBTiler) : Nat :=
  m.tiles.card

/-! ## CTBZOutputStream: the streaming gzip compressor

The z_stream state is modelled by `ZStreamModel`: the not-yet-delivered
compressed bytes (`pendingOut`), the bytes consumed since the last reset
(`totalPayload`, which drives the gzip trailer), whether the member trailer
has been produced (`finished`), whether the stream state is consistent
(`valid`; deflate reports Z_STREAM_ERROR exactly on an inconsistent state),
and the mirror of avail_in after the last deflate call (`availIn`). -/

/-- The two flush modes the source passes to deflate: Z_NO_FLUSH from write
and Z_FINISH from finish. -/
inductive ZFlush where
  | zNoFlush : ZFlush
  | zFinish : ZFlush
deriving DecidableEq, Repr

/-- Modelled from the spec: the fixed header bytes of a standalone gzip
member, as produced by deflateInit2 with windowBits 16 + MAX_WBITS
(gzip framing). -/
def gzipHeader : List Nat :=
  [31, 139, 8, 0, 0, 0, 0, 0, 0, 255]

/-- Modelled from the spec: the eight trailer bytes (checksum and length)
that close a standalone gzip member, a function of the payload consumed
since the stream was (re)initialized. -/
def gzipTrailer (payload : List Nat) : List Nat :=
  [payload.foldl (fun a b => (a + b) % 256) 0, 0, 0, 0,
   payload.length % 256, payload.length / 256 % 256,
   payload.length / 65536 % 256, payload.length / 16777216 % 256]

/-- The modelled z_stream state. -/
structure ZStreamModel where
  availIn : Nat
  pendingOut : List Nat
  totalPayload : List Nat
  finished : Bool
  valid : Bool
deriving DecidableEq

/-- Modelled from the spec: the state transition performed by zlib's deflate
on a consistent stream.  deflate consumes the entire supplied input (so that
whenever it reports spare output space avail_in is zero), appends the
compressed form of that input to the stream's pending output, and with
Z_FINISH appends the gzip trailer exactly once, marking the member finished.
The compressed form of the payload bytes is modelled as the bytes themselves
(a legal deflate encoding); nothing below depends on the particular
encoding, only on the framing and on its invertibility. -/
def zDeflateConsume (st : ZStreamModel) (input : List Nat) (flush : ZFlush) :
    ZStreamModel :=
  { availIn := 0,
    pendingOut := st.pendingOut ++ input ++
      (match flush with
       | ZFlush.zNoFlush => []
       | ZFlush.zFinish =>
           if st.finished then [] else gzipTrailer (st.totalPayload ++ input)),
    totalPayload := st.totalPayload ++ input,
    finished := (match flush with
                 | ZFlush.zNoFlush => st.finished
                 | ZFlush.zFinish => true),
    valid := st.valid }

/-- The do/while drain loop of CTBZOutputStream::deflateRound: each round
offers a 4096-byte scratch chunk (avail_out = TMPSIZE), appends the bytes the
engine produced to the growing buffer, and loops exactly while the engine
filled the whole chunk (avail_out == 0).  Returns the emitted bytes and the
bytes the engine still holds when the loop exits. -/
def drainLoop (pend : List Nat) : List Nat × List Nat :=
  if (pend.take 4096).length = 4096 then
    match drainLoop (pend.drop 4096) with
    | (emitted, leftover) => (pend.take 4096 ++ emitted, leftover)
  else
    (pend.take 4096, pend.drop 4096)
termination_by pend.length
decreasing_by
  simp only [List.length_take] at *
  simp only [List.length_drop]
  omega

/-- The compressor object: the z_stream and the growable output buffer. -/
structure CTBZOutputStream where
  stream : ZStreamModel
  buffer : List Nat
deriving DecidableEq

/-- The stream state established by CTBZOutputStream::init (deflateInit2 with
gzip framing): a fresh, valid, unfinished member whose header is pending. -/
def zInit : ZStreamModel :=
  { availIn := 0, pendingOut := gzipHeader, totalPayload := [],
    finished := false, valid := true }

/-- The CTBZOutputStream constructor. -/
def CTBZOutputStream.init : CTBZOutputStream :=
  { stream := zInit, buffer := [] }

/-- Modelled from the spec: zlib's deflateReset restores a consistent stream
to its initial state without reallocating the context; on an inconsistent
stream it fails, and the source ignores its return value, so the state is
left unchanged there. -/
def deflateReset (st : ZStreamModel) : ZStreamModel :=
  if st.valid then zInit else st

/-- CTBZOutputStream::deflateRound: set next_in/avail_in to the supplied
data, then run the drain loop.  A deflate call on an inconsistent stream
returns Z_STREAM_ERROR and the source throws CTBException("Compression
failed"); on a consistent stream the engine consumes all input and the loop
drains it (zDeflateConsume and drainLoop above). -/
def CTBZOutputStream.deflateRound (o : CTBZOutputStream) (input : List Nat)
    (flush : ZFlush) : Except String CTBZOutputStream :=
  if o.stream.valid = false then
    Except.error "Compression failed"
  else
    match drainLoop (zDeflateConsume { o.stream with availIn := input.length }
        input flush).pendingOut with
    | (emitted, leftover) =>
        Except.ok
          { stream := { zDeflateConsume { o.stream with availIn := input.length }
                          input flush with pendingOut := leftover },
            buffer := o.buffer ++ emitted }

/-- CTBZOutputStream::write: one deflateRound with Z_NO_FLUSH. -/
def CTBZOutputStream.write (o : CTBZOutputStream) (data : List Nat) :
    Except String CTBZOutputStream :=
  o.deflateRound data ZFlush.zNoFlush

/-- CTBZOutputStream::finish: one deflateRound with Z_FINISH and no input. -/
def CTBZOutputStream.finish (o : CTBZOutputStream) :
    Except String CTBZOutputStream :=
  o.deflateRound [] ZFlush.zFinish

/-- CTBZOutputStream::reset: clear the output buffer and deflateReset the
stream. -/
def CTBZOutputStream.reset (o : CTBZOutputStream) : CTBZOutputStream :=
  { buffer := [], stream := deflateReset o.stream }

/-- CTBZOutputStream::data (valid after finish): the completed buffer. -/
def CTBZOutputStream.data (o : CTBZOutputStream) : List Nat :=
  o.buffer

/-- CTBZOutputStream::size (valid after finish). -/
def CTBZOutputStream.size (o : CTBZOutputStream) : Nat :=
  o.buffer.length

/-- A standalone gzip member for payload p under the modelled framing:
header, compressed payload, trailer. -/
def encodeGzip (p : List Nat) : List Nat :=
  gzipHeader ++ p ++ gzipTrailer p

/-- Standard decompression of one standalone gzip member under the modelled
framing: check the member header, strip header and trailer, recover the
payload.  Returns none if the bytes are not a complete member. -/
def gunzip (s : List Nat) : Option (List Nat) :=
  if s.take 10 = gzipHeader ∧ 18 ≤ s.length then
    some ((s.drop 10).take (s.length - 18))
  else
    none

/-! ## CTBMBTilesTileSerializer -/

/-- A MeshTile as the serializer sees it: its coordinate and the byte chunks
its writeFile method streams into the output stream. -/
structure MeshTile where
  zoom : Nat
  x : Nat
  y : Nat
  payload : List (List Nat)
deriving DecidableEq

/-- Feed a list of chunks through successive write calls, propagating the
first compression failure. -/
def writeChunks (o : CTBZOutputStream) : List (List Nat) →
    Except String CTBZOutputStream
  | [] => Except.ok o
  | c :: cs =>
    match o.write c with
    | Except.error e => Except.error e
    | Except.ok o1 => writeChunks o1 cs

/-- Modelled from the spec: MeshTile::writeFile (the quantized-mesh encoder,
external to the core) streams the tile's payload chunks through the supplied
output stream; the writeVertexNormals flag only selects which payload the
encoder produces, which is already reflected in the modelled payload. -/
def MeshTile.writeFile (tile : MeshTile) (o : CTBZOutputStream)
    (_writeVertexNormals : Bool) : Except String CTBZOutputStream :=
  writeChunks o tile.payload

/-- The serializer object from CTBMBTilesTileSerializer.hpp: the store
pointer, the resume flag and the per-worker gzip compressor. -/
structure CTBMBTilesTileSerializer where
  mbtiler : MBTiler
  resume : Bool
  gzipStream : CTBZOutputStream
deriving DecidableEq

/-- CTBMBTilesTileSerializer::mustSerializeCoordinate: true unconditionally
unless resume mode is enabled, in which case the negation of
testTileExists. -/
def CTBMBTilesTileSerializer.mustSerializeCoordinate
    (s : CTBMBTilesTileSerializer) (coordinate : TileCoordinate) : Bool :=
  if !s.resume then true
  else !(s.mbtiler.testTileExists coordinate.zoom coordinate.x coordinate.y)

/-- The compression phase of serializeTile: reset the compressor, stream the
tile through it (tile->writeFile), finish it. -/
def compressTilePayload (z : CTBZOutputStream) (tile : MeshTile)
    (writeVertexNormals : Bool) : Except String CTBZOutputStream :=
  match tile.writeFile z.reset writeVertexNormals with
  | Except.error e => Except.error e
  | Except.ok z1 => z1.finish

/-- CTBMBTilesTileSerializer::serializeTile: reset, stream, finish, then
insertBlob the compressed buffer at the tile's coordinate.  A C++ exception
from either phase propagates; the error carries the store state at the point
the exception escaped so that store mutation is observable. -/
def CTBMBTilesTileSerializer.serializeTile (s : CTBMBTilesTileSerializer)
    (tile : MeshTile) (writeVertexNormals : Bool) (stepOk : Bool) :
    Except (String × MBTiler) CTBMBTilesTileSerializer :=
  match compressTilePayload s.gzipStream tile writeVertexNormals with
  | Except.error e => Except.error (e, s.mbtiler)
  | Except.ok z2 =>
    match s.mbtiler.insertBlob z2.data tile.zoom tile.x tile.y stepOk with
    | (mb, some e) => Except.error (e, mb)
    | (mb, none) =>
        Except.ok { mbtiler := mb, resume := s.resume, gzipStream := z2 }

/-- Modelled from the spec: the build worker's per-coordinate step (the
MBTiles caller of the serializer is not among the given sources): it asks
mustSerializeCoordinate and serializes only when that gate answers true,
otherwise the coordinate is skipped and nothing is regenerated. -/
def processCoordinate (s : CTBMBTilesTileSerializer) (tile : MeshTile)
    (writeVertexNormals : Bool) (stepOk : Bool) :
    Except (String × MBTiler) CTBMBTilesTileSerializer :=
  if s.mustSerializeCoordinate ⟨tile.zoom, tile.x, tile.y⟩ then
    s.serializeTile tile writeVertexNormals stepOk
  else
    Except.ok s

/-! ## ctb-tile: the iteration coordination protocol

incrementIterator (tools/ctb-tile.cpp) guards a single global counter with a
mutex; each worker owns a private iterator and a private currentIndex that
move in lockstep (the iterator supports only forward single-stepping over a
deterministic enumeration, so the cursor is its position).  Because the
mutex serializes the calls, a concurrent execution is a sequence of claim
steps; a schedule is the list of worker ids in mutex-acquisition order. -/

/-- The catch-up while loop of incrementIterator: while currentIndex is
below the global index, step the iterator and the index together; the loop
body runs once per remaining gap step, so it is recursion on the gap. -/
def catchUpAux : Nat → Nat → Nat
  | 0, currentIndex => currentIndex
  | gap + 1, currentIndex => catchUpAux gap (currentIndex + 1)

/-- The value of currentIndex (and the iterator position) after the catch-up
loop of incrementIterator exits. -/
def catchUp (currentIndex globalIteratorIndex : Nat) : Nat :=
  catchUpAux (globalIteratorIndex - currentIndex) currentIndex

/-- incrementIterator under the mutex: catch the private cursor up to the
global index, then increment the global index.  Returns the new global index
and the claimed currentIndex (the value the function returns in the
source). -/
def incrementIterator (globalIteratorIndex currentIndex : Nat) : Nat × Nat :=
  (globalIteratorIndex + 1, catchUp currentIndex globalIteratorIndex)

/-- One worker's private iteration state: its currentIndex (equal to its
iterator position) and whether it has observed exhaustion and left its
loop. -/
structure WorkerState where
  currentIndex : Nat
  exhausted : Bool
deriving DecidableEq, Repr

/-- The shared system state: the global counter, every worker's private
state, and the trace of claims (worker id, claimed index) in
mutex-acquisition order. -/
structure TilerSystem where
  globalIteratorIndex : Nat
  workers : List WorkerState
  trace : List (Nat × Nat)
deriving DecidableEq, Repr

/-- The initial state: the global counter at 0 and W workers each with a
private cursor at position 0, private index 0, still in their loops. -/
def initSystem (W : Nat) : TilerSystem :=
  { globalIteratorIndex := 0,
    workers := List.replicate W ⟨0, false⟩,
    trace := [] }

/-- One claim step by worker w over an enumeration of length L: if the
worker exists and is still in its loop, it calls incrementIterator and then
checks iter.exhausted(), which holds exactly when its cursor has moved past
the last element (claimed index at least L). -/
def stepClaim (L : Nat) (s : TilerSystem) (w : Nat) : TilerSystem :=
  match s.workers[w]? with
  | none => s
  | some ws =>
    if ws.exhausted then s
    else
      let r := incrementIterator s.globalIteratorIndex ws.currentIndex
      { globalIteratorIndex := r.1,
        workers := s.workers.set w ⟨r.2, decide (L ≤ r.2)⟩,
        trace := s.trace ++ [(w, r.2)] }

/-- Run the protocol under a schedule (the worker ids in mutex-acquisition
order). -/
def runSchedule (L : Nat) (s : TilerSystem) : List Nat → TilerSystem
  | [] => s
  | w :: sched => runSchedule L (stepClaim L s w) sched

/-- The indices claimed so far, in claim order. -/
def claimedIndices (s : TilerSystem) : List Nat :=
  s.trace.map fun p => p.2

/-- The coordinates actually returned to workers so far, in claim order: a
claim whose index lies beyond the enumeration returned no coordinate (the
worker observed exhaustion instead). -/
def processedCoords {α : Type} (enum : List α) (s : TilerSystem) : List α :=
  s.trace.filterMap fun p => enum[p.2]?

/-! ## ctb-tile: the driver -/

/-- runTiler (tools/ctb-tile.cpp): returns 1 if the GDAL dataset cannot be
opened; otherwise runs the build, catching any CTBException, printing it to
stderr, and falling through to return 0.  The build outcome is the error the
build body would throw, if any. -/
def runTiler (datasetOk : Bool) (buildError : Option String) : Nat :=
  if !datasetOk then 1
  else
    match buildError with
    | some _e => 0
    | none => 0

/-- The driver's aggregation in main: after joining all threads, return the
first non-zero future value, else 0. -/
def firstError : List Nat → Nat
  | [] => 0
  | r :: rs => if r ≠ 0 then r else firstError rs

/-- The process result: every worker's runTiler outcome, folded by
first-error-wins. -/
def mainResult (ws : List (Bool × Option String)) : Nat :=
  firstError (ws.map fun p => runTiler p.1 p.2)

/-! ## Helper lemmas about the packed identifier -/

/-- Shifting a high field left and or-ing in a low field below the shift
amount is plain addition. -/
theorem lor_low_eq_add (a b k : Nat) (h : b < 2 ^ k) :
    ((a <<< k) ||| b) = a * 2 ^ k + b := by
  rw [Nat.shiftLeft_eq, Nat.mul_comm a (2 ^ k)]
  exact (Nat.mul_add_lt_is_or h a).symm

/-- Within the 6/29/29-bit bounds the packed identifier is the base-2^29
digit expansion, and the modulo-2^64 reduction is the identity. -/
theorem packTile_eq_add (z x y : Nat)
    (hz : z < 2 ^ 6) (hx : x < 2 ^ 29) (hy : y < 2 ^ 29) :
    packTile z x y = z * 2 ^ 58 + x * 2 ^ 29 + y := by
  have hx' : x <<< 29 < 2 ^ 58 := by
    rw [Nat.shiftLeft_eq]
    calc x * 2 ^ 29 < 2 ^ 29 * 2 ^ 29 :=
          Nat.mul_lt_mul_of_lt_of_le hx (Nat.le_refl _) (Nat.pos_pow_of_pos 29 (by norm_num))
    _ = 2 ^ 58 := by norm_num
  have h1 : ((z <<< 58) ||| (x <<< 29)) = z * 2 ^ 58 + x * 2 ^ 29 := by
    rw [lor_low_eq_add z (x <<< 29) 58 hx', Nat.shiftLeft_eq]
  have h2 : z * 2 ^ 58 + x * 2 ^ 29 = (z * 2 ^ 29 + x) * 2 ^ 29 := by ring
  have h3 : (((z * 2 ^ 29 + x) * 2 ^ 29) ||| y) = (z * 2 ^ 29 + x) * 2 ^ 29 + y := by
    rw [Nat.mul_comm (z * 2 ^ 29 + x) (2 ^ 29)]
    exact (Nat.mul_add_lt_is_or hy (z * 2 ^ 29 + x)).symm
  have hlt : (z * 2 ^ 29 + x) * 2 ^ 29 + y < 2 ^ 64 := by
    have e29 : (2 : Nat) ^ 29 = 536870912 := by norm_num
    have e6 : (2 : Nat) ^ 6 = 64 := by norm_num
    have e64 : (2 : Nat) ^ 64 = 18446744073709551616 := by norm_num
    rw [e29] at hx hy ⊢
    rw [e6] at hz
    rw [e64]
    omega
  unfold packTile
  rw [h1, h2, h3, Nat.mod_eq_of_lt hlt]

/-! ## Claim C7: injectivity of the packed identifier within bounds -/

/-- Claim C7: for coordinates within the 6/29/29-bit bounds, equal packed
64-bit identifiers (as computed by testTileExists and loadTiles) imply equal
coordinate triples. -/
theorem claim_C7_packed_id_injective (z x y z2 x2 y2 : Nat)
    (hz : z < 2 ^ 6) (hx : x < 2 ^ 29) (hy : y < 2 ^ 29)
    (hz2 : z2 < 2 ^ 6) (hx2 : x2 < 2 ^ 29) (hy2 : y2 < 2 ^ 29)
    (h : packTile z x y = packTile z2 x2 y2) :
    z = z2 ∧ x = x2 ∧ y = y2 := by
  rw [packTile_eq_add z x y hz hx hy, packTile_eq_add z2 x2 y2 hz2 hx2 hy2] at h
  have e29 : (2 : Nat) ^ 29 = 536870912 := by norm_num
  have e58 : (2 : Nat) ^ 58 = 288230376151711744 := by norm_num
  have e6 : (2 : Nat) ^ 6 = 64 := by norm_num
  rw [e29] at hx hy hx2 hy2
  rw [e6] at hz hz2
  rw [e29, e58] at h
  refine ⟨by omega, by omega, by omega⟩

/-- Witness for claim C7 at the concrete coordinate (3, 5, 7). -/
theorem claim_C7_witness : (3 : Nat) = 3 ∧ (5 : Nat) = 5 ∧ (7 : Nat) = 7 :=
  claim_C7_packed_id_injective 3 5 7 3 5 7 (by norm_num) (by norm_num)
    (by norm_num) (by norm_num) (by norm_num) (by norm_num) rfl

/-! ## Claim C6: the mustSerializeCoordinate gate -/

/-- A store whose tiles table already contains exactly the coordinate
(0, 0, 0), as reopened by the MBTiler constructor. -/
def store000 : MBTiler := MBTiler.openStore [⟨0, 0, 0, []⟩]

/-- Claim C6: mustSerializeCoordinate returns true whenever resume mode is
disabled, and the negation of testTileExists whenever it is enabled; in
particular, over a store already containing (0,0,0) it returns false at
(0,0,0) and true at the absent (0,1,0). -/
theorem claim_C6_must_serialize_gate :
    (∀ (m : MBTiler) (g : CTBZOutputStream) (c : TileCoordinate),
        CTBMBTilesTileSerializer.mustSerializeCoordinate ⟨m, false, g⟩ c = true)
    ∧ (∀ (m : MBTiler) (g : CTBZOutputStream) (c : TileCoordinate),
        CTBMBTilesTileSerializer.mustSerializeCoordinate ⟨m, true, g⟩ c
          = !(m.testTileExists c.zoom c.x c.y))
    ∧ (∀ g : CTBZOutputStream,
        CTBMBTilesTileSerializer.mustSerializeCoordinate ⟨store000, true, g⟩
          ⟨0, 0, 0⟩ = false)
    ∧ (∀ g : CTBZOutputStream,
        CTBMBTilesTileSerializer.mustSerializeCoordinate ⟨store000, true, g⟩
          ⟨0, 1, 0⟩ = true) := by
  refine ⟨fun m g c => rfl, fun m g c => rfl, fun g => ?_, fun g => ?_⟩
  · show (!(store000.testTileExists 0 0 0)) = false
    decide
  · show (!(store000.testTileExists 0 1 0)) = true
    decide

/-! ## Claim C9: the insert mutex on the failure path (code bug) -/

/-- Evidence for claim C9's failure: when sqlite3_step fails inside
insertBlob, the exception escapes with the mutex still held (mtxLocked stays
true and no row was appended), whereas the successful path releases it.
The claim that the mutex is released on every exit path is therefore false
of the code. -/
theorem claim_C9_mutex_leak :
    ((MBTiler.openStore []).insertBlob [1] 0 0 0 false).1.mtxLocked = true
    ∧ ((MBTiler.openStore []).insertBlob [1] 0 0 0 false).2 = some "SQLite Error"
    ∧ ((MBTiler.openStore []).insertBlob [1] 0 0 0 false).1.records = []
    ∧ ((MBTiler.openStore []).insertBlob [1] 0 0 0 true).1.mtxLocked = false :=
  ⟨rfl, rfl, rfl, rfl⟩

/-! ## Claim C2: insertBlob and the in-memory existence index -/

/-- A store opened over an empty tiles table. -/
def emptyStore : MBTiler := MBTiler.openStore []

/-- A fresh build that inserts the five distinct scenario coordinates
(0,0,0), (0,1,0), (0,0,1), (0,1,1), (1,0,0) into the initially empty store,
every insert succeeding, without closing and reopening the store. -/
def build5 : MBTiler :=
  (((((emptyStore.insertBlob [1] 0 0 0 true).1.insertBlob [2] 0 1 0
      true).1.insertBlob [3] 0 0 1 true).1.insertBlob [4] 0 1 1
      true).1.insertBlob [5] 1 0 0 true).1

/-- Counterexample to claim C2: after a fresh build inserting five distinct
tiles into an initially empty store, numTiles() does not return 5 within the
same run, because insertBlob never grows the in-memory index. -/
theorem claim_C2_counterexample : ¬ (build5.numTiles = 5) := by decide

/-- Claim C2 as amended: a successful insertBlob leaves the in-memory
existence index unchanged (it only appends the persisted row), so after the
fresh five-tile build numTiles() returns 0 within the same run even though
five rows were persisted; only reopening the store (which rescans the rows
via loadTiles) makes numTiles() return 5. -/
theorem claim_C2_amended :
    (∀ (m : MBTiler) (blob : List Nat) (z c r : Nat) (ok : Bool),
        ((m.insertBlob blob z c r ok).1).tiles = m.tiles)
    ∧ build5.numTiles = 0
    ∧ build5.records.length = 5
    ∧ (MBTiler.openStore build5.records).numTiles = 5 := by
  refine ⟨fun m blob z c r ok => ?_, by decide, by decide, by decide⟩
  unfold MBTiler.insertBlob
  cases ok <;> rfl

/-! ## Claim C8: error propagation to the process boundary -/

/-- Counterexample to claim C8: a worker whose build aborts on a fatal
compression error (a CTBException reaching runTiler's catch block) returns
outcome 0, not a non-zero outcome, and the process result over such a worker
is 0. -/
theorem claim_C8_counterexample :
    runTiler true (some "Compression failed") = 0
    ∧ mainResult [(true, some "Compression failed")] = 0 :=
  ⟨rfl, rfl⟩

/-- Claim C8 as amended: the driver does join all workers and return the
first non-zero worker outcome, but a worker that aborts on a fatal
compression or storage error catches the exception, reports it to stderr
and returns 0; only failure to open the input dataset yields a non-zero
outcome (1).  Hence any build whose workers all open the dataset exits 0
regardless of fatal build errors. -/
theorem claim_C8_amended :
    (∀ ws : List (Bool × Option String),
        mainResult ws = firstError (ws.map fun p => runTiler p.1 p.2))
    ∧ (∀ b : Option String, runTiler false b = 1)
    ∧ (∀ b : Option String, runTiler true b = 0)
    ∧ (∀ ws : List (Bool × Option String),
        (∀ w ∈ ws, w.1 = true) → mainResult ws = 0) := by
  refine ⟨fun ws => rfl, fun b => rfl, fun b => by cases b <;> rfl, ?_⟩
  intro ws h
  induction ws with
  | nil => rfl
  | cons w rest ih =>
    have hw : runTiler w.1 w.2 = 0 := by
      rw [h w (List.mem_cons_self w rest)]
      cases w.2 <;> rfl
    have hrest : mainResult rest = 0 :=
      ih (fun x hx => h x (List.mem_cons_of_mem w hx))
    show firstError (List.map (fun p => runTiler p.1 p.2) (w :: rest)) = 0
    rw [List.map_cons, hw]
    show firstError (0 :: rest.map fun p => runTiler p.1 p.2) = 0
    simpa [firstError] using hrest

/-- Witness for the amended claim C8 over two workers that both open the
dataset, the first hitting a storage error. -/
theorem claim_C8_witness :
    mainResult [(true, some "SQLite Error"), (true, none)] = 0 :=
  claim_C8_amended.2.2.2 [(true, some "SQLite Error"), (true, none)] (by decide)

/-! ## Compressor lemmas -/

/-- The drain loop of deflateRound emits everything the engine held and
leaves the engine's pending output empty: each round hands out a full
4096-byte chunk until a round leaves spare output space, at which point the
remainder was shorter than a chunk and was emitted whole. -/
theorem drainLoop_spec (pend : List Nat) : drainLoop pend = (pend, []) := by
  rw [drainLoop]
  split
  · rw [drainLoop_spec (pend.drop 4096)]
    simp [List.take_append_drop]
  · next h =>
      have hlen : pend.length < 4096 := by
        simp only [List.length_take] at h
        omega
      rw [List.take_of_length_le (Nat.le_of_lt hlen),
        List.drop_eq_nil_of_le (Nat.le_of_lt hlen)]
termination_by pend.length
decreasing_by
  simp only [List.length_take] at *
  simp only [List.length_drop]
  omega

/-- The state of a compressor object mid-member: the buffer and the pending
output together spell the gzip header followed by the payload consumed since
the last reset, the member is not yet finished, and the stream is
consistent. -/
def StreamInv (o : CTBZOutputStream) (j : List Nat) : Prop :=
  o.buffer ++ o.stream.pendingOut = gzipHeader ++ j
  ∧ o.stream.totalPayload = j
  ∧ o.stream.finished = false
  ∧ o.stream.valid = true

/-- The compressor state after the writes of one cycle have been fully
drained for payload j. -/
def midState (j : List Nat) : CTBZOutputStream :=
  { stream := { availIn := 0, pendingOut := [], totalPayload := j,
                finished := false, valid := true },
    buffer := gzipHeader ++ j }

theorem midState_inv (j : List Nat) : StreamInv (midState j) j := by
  refine ⟨?_, rfl, rfl, rfl⟩
  simp [midState]

/-- reset establishes the invariant for the empty payload whenever the
stream is consistent. -/
theorem reset_inv (o : CTBZOutputStream) (h : o.stream.valid = true) :
    StreamInv o.reset [] := by
  unfold CTBZOutputStream.reset deflateReset
  rw [h]
  exact ⟨by simp [zInit], rfl, rfl, rfl⟩

/-- One write call from an invariant state succeeds and fully drains,
extending the payload by the written bytes. -/
theorem write_inv (o : CTBZOutputStream) (j d : List Nat) (h : StreamInv o j) :
    o.write d = Except.ok (midState (j ++ d)) := by
  obtain ⟨hb, hp, hf, hv⟩ := h
  unfold CTBZOutputStream.write CTBZOutputStream.deflateRound
  rw [if_neg (by rw [hv]; simp)]
  rw [drainLoop_spec]
  unfold zDeflateConsume midState
  simp only [hp, hf, hv, List.append_nil]
  have hbuf : o.buffer ++ (o.stream.pendingOut ++ d) = gzipHeader ++ (j ++ d) := by
    rw [← List.append_assoc, hb, List.append_assoc]
  rw [hbuf]

/-- Zero or more writes from an invariant state succeed and re-establish the
invariant with the concatenated payload appended. -/
theorem writeChunks_inv (o : CTBZOutputStream) (j : List Nat)
    (cs : List (List Nat)) (h : StreamInv o j) :
    ∃ o2, writeChunks o cs = Except.ok o2 ∧ StreamInv o2 (j ++ cs.flatten) := by
  induction cs generalizing o j with
  | nil => exact ⟨o, rfl, by simpa using h⟩
  | cons c cs ih =>
    have hw := write_inv o j c h
    obtain ⟨o2, h2, hinv2⟩ := ih (midState (j ++ c)) (j ++ c) (midState_inv _)
    refine ⟨o2, ?_, ?_⟩
    · unfold writeChunks
      rw [hw]
      exact h2
    · simpa [List.append_assoc] using hinv2

/-- finish from an invariant state succeeds, appends the trailer for the
accumulated payload exactly once, and leaves the completed standalone gzip
member in the buffer. -/
theorem finish_inv (o : CTBZOutputStream) (j : List Nat) (h : StreamInv o j) :
    o.finish = Except.ok
      { stream := { availIn := 0, pendingOut := [], totalPayload := j,
                    finished := true, valid := true },
        buffer := encodeGzip j } := by
  obtain ⟨hb, hp, hf, hv⟩ := h
  unfold CTBZOutputStream.finish CTBZOutputStream.deflateRound
  rw [if_neg (by rw [hv]; simp)]
  rw [drainLoop_spec]
  unfold zDeflateConsume
  simp only [hp, hf, hv, List.append_nil, Bool.false_eq_true, if_false]
  have hbuf : o.buffer ++ (o.stream.pendingOut ++ gzipTrailer j) = encodeGzip j := by
    rw [← List.append_assoc, hb]
    rfl
  rw [hbuf]

/-- One full compression cycle exactly as claim C4 describes it: reset, zero
or more write calls covering the payload, then finish. -/
def compressCycle (o : CTBZOutputStream) (chunks : List (List Nat)) :
    Except String CTBZOutputStream :=
  match writeChunks o.reset chunks with
  | Except.error e => Except.error e
  | Except.ok o1 => o1.finish

/-- A compression cycle over a consistent stream succeeds and deposits
exactly the standalone gzip member for the concatenated payload, in a state
that is again consistent. -/
theorem compressCycle_spec (o : CTBZOutputStream) (h : o.stream.valid = true)
    (chunks : List (List Nat)) :
    compressCycle o chunks = Except.ok
      { stream := { availIn := 0, pendingOut := [], totalPayload := chunks.flatten,
                    finished := true, valid := true },
        buffer := encodeGzip chunks.flatten } := by
  obtain ⟨o2, hw, hinv⟩ := writeChunks_inv o.reset [] chunks (reset_inv o h)
  unfold compressCycle
  rw [hw]
  have hinv' : StreamInv o2 chunks.flatten := by simpa using hinv
  exact finish_inv o2 chunks.flatten hinv'

/-- Decompression of the modelled standalone gzip member recovers the
payload exactly. -/
theorem gunzip_encodeGzip (p : List Nat) : gunzip (encodeGzip p) = some p := by
  have hassoc : encodeGzip p = gzipHeader ++ (p ++ gzipTrailer p) := by
    unfold encodeGzip
    rw [List.append_assoc]
  have hlen : (encodeGzip p).length = p.length + 18 := by
    simp [encodeGzip, gzipHeader, gzipTrailer]
  have htake : (encodeGzip p).take 10 = gzipHeader := by
    rw [hassoc]
    exact List.take_left' (by simp [gzipHeader])
  have hdrop : (encodeGzip p).drop 10 = p ++ gzipTrailer p := by
    rw [hassoc]
    exact List.drop_left' (by simp [gzipHeader])
  unfold gunzip
  rw [if_pos ⟨htake, by omega⟩, hdrop, hlen]
  rw [show p.length + 18 - 18 = p.length by omega]
  rw [List.take_left' rfl]

/-! ## Claim C4: the compression round trip -/

/-- Claim C4: for every payload, including the empty one, a cycle of reset,
zero or more writes covering the payload, then finish yields via data a
complete standalone gzip member whose standard decompression reproduces the
payload exactly; and a further cycle on the same instance produces an
independent, equally valid member whose content is a function of the new
payload alone, unaffected by the prior cycle's content. -/
theorem claim_C4_compression_round_trip (o : CTBZOutputStream)
    (h : o.stream.valid = true) (chunks next : List (List Nat)) :
    (compressCycle o chunks).map CTBZOutputStream.data
        = Except.ok (encodeGzip chunks.flatten)
    ∧ gunzip (encodeGzip chunks.flatten) = some chunks.flatten
    ∧ ((compressCycle o chunks).bind fun o1 => compressCycle o1 next).map
          CTBZOutputStream.data
        = Except.ok (encodeGzip next.flatten)
    ∧ gunzip (encodeGzip next.flatten) = some next.flatten := by
  refine ⟨?_, gunzip_encodeGzip _, ?_, gunzip_encodeGzip _⟩
  · rw [compressCycle_spec o h chunks]
    rfl
  · rw [compressCycle_spec o h chunks]
    show ((compressCycle { stream := _, buffer := _ } next).map _) = _
    rw [compressCycle_spec _ rfl next]
    rfl

/-- Witness for claim C4 on the freshly constructed compressor with a
two-chunk payload and a different second-cycle payload. -/
theorem claim_C4_witness :
    (compressCycle CTBZOutputStream.init [[1, 2], [3]]).map CTBZOutputStream.data
        = Except.ok (encodeGzip [1, 2, 3])
    ∧ gunzip (encodeGzip [1, 2, 3]) = some [1, 2, 3]
    ∧ ((compressCycle CTBZOutputStream.init [[1, 2], [3]]).bind fun o1 =>
          compressCycle o1 [[9]]).map CTBZOutputStream.data
        = Except.ok (encodeGzip [9])
    ∧ gunzip (encodeGzip [9]) = some [9] :=
  claim_C4_compression_round_trip CTBZOutputStream.init rfl [[1, 2], [3]] [[9]]

/-! ## Claim C10: the deflateRound drain loop consumes all input -/

/-- Claim C10: every invocation of deflateRound (and hence of write and
finish) that returns without raising an error has drained until the engine
reported spare output space, at which point all input supplied to the
invocation has been consumed: the avail_in == 0 assertion at the end of
deflateRound never fails. -/
theorem claim_C10_avail_in_consumed (o o2 : CTBZOutputStream)
    (input : List Nat) (flush : ZFlush)
    (h : o.deflateRound input flush = Except.ok o2) :
    o2.stream.availIn = 0 := by
  unfold CTBZOutputStream.deflateRound at h
  by_cases hv : o.stream.valid = false
  · rw [if_pos hv] at h
    exact absurd h (by simp)
  · rw [if_neg hv, drainLoop_spec] at h
    rw [← Except.ok.inj h]
    rfl

/-- Witness for claim C10 on the fresh compressor consuming three bytes. -/
theorem claim_C10_witness :
    ({ stream := { availIn := 0, pendingOut := [], totalPayload := [1, 2, 3],
                   finished := false, valid := true },
       buffer := [31, 139, 8, 0, 0, 0, 0, 0, 0, 255, 1, 2, 3] } :
        CTBZOutputStream).stream.availIn = 0 :=
  claim_C10_avail_in_consumed CTBZOutputStream.init _ [1, 2, 3] ZFlush.zNoFlush
    (by
      unfold CTBZOutputStream.deflateRound
      rw [if_neg (by simp [CTBZOutputStream.init, zInit]), drainLoop_spec]
      simp [CTBZOutputStream.init, zInit, zDeflateConsume, gzipHeader])

/-! ## Claim C5: serializeTile never partially writes -/

/-- Claim C5: if the compression phase of serializeTile (reset, streaming
the payload, finish) fails, the call aborts before any store mutation and
the store is exactly as before the call; once compression has completed the
only possible failure is the insertBlob step; and insertBlob never writes a
partial record: it appends the whole record or nothing. -/
theorem claim_C5_serialize_no_partial :
    (∀ (s : CTBMBTilesTileSerializer) (tile : MeshTile) (wvn ok : Bool)
        (e : String),
        compressTilePayload s.gzipStream tile wvn = Except.error e →
          s.serializeTile tile wvn ok = Except.error (e, s.mbtiler))
    ∧ (∀ (s : CTBMBTilesTileSerializer) (tile : MeshTile) (wvn : Bool)
        (z2 : CTBZOutputStream),
        compressTilePayload s.gzipStream tile wvn = Except.ok z2 →
          s.serializeTile tile wvn true = Except.ok
              { mbtiler := (s.mbtiler.insertBlob z2.data tile.zoom tile.x
                              tile.y true).1,
                resume := s.resume, gzipStream := z2 }
          ∧ s.serializeTile tile wvn false = Except.error ("SQLite Error",
              (s.mbtiler.insertBlob z2.data tile.zoom tile.x tile.y false).1))
    ∧ (∀ (m : MBTiler) (b : List Nat) (z x y : Nat) (ok : Bool),
        (m.insertBlob b z x y ok).1.records = m.records ++ [⟨z, x, y, b⟩]
        ∨ (m.insertBlob b z x y ok).1.records = m.records) := by
  refine ⟨?_, ?_, ?_⟩
  · intro s tile wvn ok e hc
    unfold CTBMBTilesTileSerializer.serializeTile
    rw [hc]
  · intro s tile wvn z2 hc
    constructor
    · unfold CTBMBTilesTileSerializer.serializeTile
      rw [hc]
      rfl
    · unfold CTBMBTilesTileSerializer.serializeTile
      rw [hc]
      rfl
  · intro m b z x y ok
    cases ok
    · exact Or.inr rfl
    · exact Or.inl rfl

/-- A compressor whose zlib stream state is inconsistent: the next deflate
call reports Z_STREAM_ERROR. -/
def invalidStream : CTBZOutputStream :=
  { stream := { zInit with valid := false }, buffer := [] }

/-- A serializer holding the corrupted compressor over the empty store. -/
def serBad : CTBMBTilesTileSerializer :=
  { mbtiler := emptyStore, resume := false, gzipStream := invalidStream }

/-- Witness for claim C5: on a corrupted compressor the compression phase
fails and serializeTile aborts with the store untouched. -/
theorem claim_C5_witness :
    serBad.serializeTile ⟨0, 0, 0, [[1, 2]]⟩ false true
      = Except.error ("Compression failed", emptyStore) :=
  claim_C5_serialize_no_partial.1 serBad ⟨0, 0, 0, [[1, 2]]⟩ false true
    "Compression failed" rfl

/-! ## Claim C3: resume idempotence across close and reopen -/

/-- Claim C3: for every coordinate within the 6/29/29-bit bounds, after a
successful insertBlob for that coordinate, closing the store and
constructing a new store over the same file (which rescans all persisted
rows via loadTiles), testTileExists returns true; hence in a subsequent
resume-mode run mustSerializeCoordinate returns false for that coordinate
and the per-coordinate build step leaves everything unchanged (the tile is
not regenerated). -/
theorem claim_C3_resume_idempotence (m : MBTiler) (blob : List Nat)
    (z x y : Nat) (hz : z < 2 ^ 6) (hx : x < 2 ^ 29) (hy : y < 2 ^ 29) :
    (MBTiler.openStore ((m.insertBlob blob z x y true).1).records).testTileExists
        z x y = true
    ∧ (∀ g : CTBZOutputStream,
        CTBMBTilesTileSerializer.mustSerializeCoordinate
          ⟨MBTiler.openStore ((m.insertBlob blob z x y true).1).records, true, g⟩
          ⟨z, x, y⟩ = false)
    ∧ (∀ (g : CTBZOutputStream) (payload : List (List Nat)) (wvn ok : Bool),
        processCoordinate
          ⟨MBTiler.openStore ((m.insertBlob blob z x y true).1).records, true, g⟩
          ⟨z, x, y, payload⟩ wvn ok
        = Except.ok
            ⟨MBTiler.openStore ((m.insertBlob blob z x y true).1).records,
              true, g⟩) := by
  have hmem : packTile z x y ∈
      loadTiles ((m.insertBlob blob z x y true).1).records := by
    unfold MBTiler.insertBlob loadTiles
    simp
  have htest : (MBTiler.openStore
      ((m.insertBlob blob z x y true).1).records).testTileExists z x y = true := by
    unfold MBTiler.testTileExists MBTiler.openStore
    exact decide_eq_true hmem
  have hmust : ∀ g : CTBZOutputStream,
      CTBMBTilesTileSerializer.mustSerializeCoordinate
        ⟨MBTiler.openStore ((m.insertBlob blob z x y true).1).records, true, g⟩
        ⟨z, x, y⟩ = false := by
    intro g
    show (!((MBTiler.openStore
        ((m.insertBlob blob z x y true).1).records).testTileExists z x y)) = false
    rw [htest]
    rfl
  refine ⟨htest, hmust, ?_⟩
  intro g payload wvn ok
  unfold processCoordinate
  rw [hmust g]
  rfl

/-- Witness for claim C3 at the concrete coordinate (1, 2, 3) inserted into
the empty store. -/
theorem claim_C3_witness :
    (MBTiler.openStore ((emptyStore.insertBlob [9] 1 2 3 true).1).records).testTileExists
        1 2 3 = true :=
  (claim_C3_resume_idempotence emptyStore [9] 1 2 3 (by norm_num) (by norm_num)
    (by norm_num)).1

/-! ## Coordinator lemmas -/

theorem catchUpAux_eq (gap c : Nat) : catchUpAux gap c = c + gap := by
  induction gap generalizing c with
  | zero => rfl
  | succ gap ih =>
    show catchUpAux gap (c + 1) = c + (gap + 1)
    rw [ih]
    omega

/-- From a cursor at or behind the global index, the catch-up loop lands the
cursor exactly on the global index. -/
theorem catchUp_eq_of_le (c g : Nat) (h : c ≤ g) : catchUp c g = g := by
  unfold catchUp
  rw [catchUpAux_eq]
  omega

/-- The running invariant of the claim protocol: the claimed indices so far
are exactly 0, 1, ..., globalIteratorIndex - 1 in claim order, every private
cursor is at or behind the global index, and a worker that has observed
exhaustion last claimed an index at least L and strictly below the global
index. -/
def claimInv (L : Nat) (s : TilerSystem) : Prop :=
  claimedIndices s = List.range s.globalIteratorIndex
  ∧ ∀ ws ∈ s.workers, ws.currentIndex ≤ s.globalIteratorIndex
      ∧ (ws.exhausted = true →
          L ≤ ws.currentIndex ∧ ws.currentIndex < s.globalIteratorIndex)

theorem initSystem_inv (L W : Nat) : claimInv L (initSystem W) := by
  refine ⟨rfl, ?_⟩
  intro ws hmem
  rw [List.eq_of_mem_replicate hmem]
  exact ⟨Nat.le_refl 0, fun hx => by simp at hx⟩

theorem stepClaim_inv (L : Nat) (s : TilerSystem) (w : Nat)
    (h : claimInv L s) : claimInv L (stepClaim L s w) := by
  obtain ⟨htr, hws⟩ := h
  unfold stepClaim
  split
  · exact ⟨htr, hws⟩
  · next ws hget =>
      split
      · exact ⟨htr, hws⟩
      · next hex =>
          have hwmem : ws ∈ s.workers := List.getElem?_mem hget
          have hle : ws.currentIndex ≤ s.globalIteratorIndex := (hws ws hwmem).1
          have hcu : catchUp ws.currentIndex s.globalIteratorIndex
              = s.globalIteratorIndex := catchUp_eq_of_le _ _ hle
          constructor
          · show (s.trace ++
                [(w, (incrementIterator s.globalIteratorIndex ws.currentIndex).2)]).map
                  (fun p => p.2)
              = List.range ((incrementIterator s.globalIteratorIndex ws.currentIndex).1)
            unfold incrementIterator
            rw [List.map_append]
            unfold claimedIndices at htr
            rw [htr, hcu, List.range_succ]
            rfl
          · intro ws2 hmem2
            rcases List.mem_or_eq_of_mem_set hmem2 with hold | hnew
            · have h2 := hws ws2 hold
              refine ⟨Nat.le_succ_of_le h2.1, fun hx => ?_⟩
              exact ⟨(h2.2 hx).1, Nat.lt_succ_of_lt (h2.2 hx).2⟩
            · subst hnew
              refine ⟨?_, ?_⟩
              · simp only [incrementIterator, hcu]
                exact Nat.le_succ _
              · intro hx
                simp only [incrementIterator, hcu] at hx ⊢
                exact ⟨of_decide_eq_true hx, Nat.lt_succ_self _⟩

theorem runSchedule_inv (L : Nat) (sched : List Nat) (s : TilerSystem)
    (h : claimInv L s) : claimInv L (runSchedule L s sched) := by
  induction sched generalizing s with
  | nil => exact h
  | cons w sched ih => exact ih _ (stepClaim_inv L s w h)

theorem stepClaim_workers_length (L : Nat) (s : TilerSystem) (w : Nat) :
    (stepClaim L s w).workers.length = s.workers.length := by
  unfold stepClaim
  split
  · rfl
  · split
    · rfl
    · simp

theorem runSchedule_workers_length (L : Nat) (sched : List Nat)
    (s : TilerSystem) :
    (runSchedule L s sched).workers.length = s.workers.length := by
  induction sched generalizing s with
  | nil => rfl
  | cons w sched ih => rw [runSchedule, ih, stepClaim_workers_length]

/-- Filtering the first g indices down to those below L, for L at most g,
leaves exactly the first L indices. -/
theorem filter_range_lt (L g : Nat) (h : L ≤ g) :
    (List.range g).filter (fun i => decide (i < L)) = List.range L := by
  induction g with
  | zero =>
    have hL : L = 0 := Nat.le_zero.mp h
    subst hL
    rfl
  | succ g ih =>
    by_cases hL : L ≤ g
    · rw [List.range_succ, List.filter_append, ih hL]
      have hg : (List.filter (fun i => decide (i < L)) [g]) = [] := by
        simp [Nat.not_lt.mpr hL]
      rw [hg, List.append_nil]
    · have hLg : L = g + 1 := by omega
      subst hLg
      apply List.filter_eq_self.mpr
      intro a ha
      simp [List.mem_range.mp ha]

/-- Looking the first n indices up in a list collects exactly its first n
elements. -/
theorem filterMap_getElem_range {α : Type} (l : List α) (n : Nat) :
    (List.range n).filterMap (fun i => l[i]?) = l.take n := by
  induction n with
  | zero => rfl
  | succ n ih =>
    rw [List.range_succ, List.filterMap_append, ih, List.take_succ]
    congr 1

/-! ## Claim C1: the exactly-once claim protocol -/

/-- Claim C1: for every canonical enumeration and every number of workers at
least 1, each starting from a private cursor at position 0 and private index
0, and every mutex-acquisition schedule that runs every worker to
exhaustion: the claimed indices are 0, 1, 2, ... in claim order (strictly
increasing); the claims that land inside the enumeration are exactly the
indices 0 to L-1; each of those indices is claimed in exactly one claim (by
exactly one worker); the coordinates handed out are exactly the enumeration;
and at any time (under any schedule) the coordinates already returned equal
exactly the first globalIteratorIndex elements of the canonical
enumeration. -/
theorem claim_C1_exactly_once_claim (α : Type) (enum : List α) (W : Nat)
    (sched : List Nat) (hW : 1 ≤ W)
    (hex : ∀ ws ∈ (runSchedule enum.length (initSystem W) sched).workers,
        ws.exhausted = true) :
    claimedIndices (runSchedule enum.length (initSystem W) sched)
        = List.range
            (runSchedule enum.length (initSystem W) sched).globalIteratorIndex
    ∧ (claimedIndices (runSchedule enum.length (initSystem W) sched)).filter
          (fun i => decide (i < enum.length)) = List.range enum.length
    ∧ (∀ i, i < enum.length →
        ((runSchedule enum.length (initSystem W) sched).trace.filter
            (fun p => p.2 == i)).length = 1)
    ∧ processedCoords enum (runSchedule enum.length (initSystem W) sched) = enum
    ∧ (∀ sched2 : List Nat,
        processedCoords enum (runSchedule enum.length (initSystem W) sched2)
          = enum.take
              (runSchedule enum.length (initSystem W) sched2).globalIteratorIndex) := by
  obtain ⟨htr, hws⟩ :=
    runSchedule_inv enum.length sched (initSystem W) (initSystem_inv _ W)
  have hany : ∀ sched2 : List Nat,
      processedCoords enum (runSchedule enum.length (initSystem W) sched2)
        = enum.take
            (runSchedule enum.length (initSystem W) sched2).globalIteratorIndex := by
    intro sched2
    obtain ⟨htr2, _⟩ :=
      runSchedule_inv enum.length sched2 (initSystem W) (initSystem_inv _ W)
    unfold processedCoords
    have hmap : (runSchedule enum.length (initSystem W) sched2).trace.filterMap
          (fun p => enum[p.2]?)
        = ((runSchedule enum.length (initSystem W) sched2).trace.map
            (fun p => p.2)).filterMap (fun i => enum[i]?) :=
      (List.filterMap_map _ _ _).symm
    rw [hmap]
    unfold claimedIndices at htr2
    rw [htr2, filterMap_getElem_range]
  have hlenW : (runSchedule enum.length (initSystem W) sched).workers.length
      = W := by
    rw [runSchedule_workers_length]
    simp [initSystem]
  have hLg : enum.length
      < (runSchedule enum.length (initSystem W) sched).globalIteratorIndex := by
    obtain ⟨ws0, hmem0⟩ := List.exists_mem_of_ne_nil _
      (List.ne_nil_of_length_pos (by omega :
        0 < (runSchedule enum.length (initSystem W) sched).workers.length))
    have h0 := (hws ws0 hmem0).2 (hex ws0 hmem0)
    omega
  refine ⟨htr, ?_, ?_, ?_, hany⟩
  · rw [htr]
    exact filter_range_lt enum.length _ (Nat.le_of_lt hLg)
  · intro i hi
    rw [← List.countP_eq_length_filter]
    have hmapcount : List.countP (fun p => p.2 == i)
          (runSchedule enum.length (initSystem W) sched).trace
        = List.countP (fun n => n == i)
            (claimedIndices (runSchedule enum.length (initSystem W) sched)) := by
      unfold claimedIndices
      rw [List.countP_map]
      rfl
    rw [hmapcount, htr]
    exact List.count_eq_one_of_mem (List.nodup_range _)
      (List.mem_range.mpr (Nat.lt_trans hi hLg))
  · rw [hany sched, List.take_of_length_le (Nat.le_of_lt hLg)]

/-- Witness for claim C1: two workers over the three-element enumeration
with the interleaved schedule 0, 0, 1, 0, 1, run to exhaustion. -/
theorem claim_C1_witness :
    processedCoords [10, 20, 30] (runSchedule 3 (initSystem 2) [0, 0, 1, 0, 1])
      = [10, 20, 30] :=
  (claim_C1_exactly_once_claim Nat [10, 20, 30] 2 [0, 0, 1, 0, 1]
    (by norm_num) (by decide)).2.2.2.1

end CTB
